import Mathlib

/-!
Verification development for the usbwhy repository: a shallow embedding of
the log-entry classifier (`usbwhy/log_parser.py`), the device/log correlator
and device analyzer (`usbwhy/analyzer.py`), together with theorems settling
the specification claims about them.

Strings are modelled as Lean `String` (lists of characters); the Python
string operations used by the source (`lower`, substring `in`, `split`,
`rsplit`, `strip`) and the two regular expressions of
`LogEntry.extract_device_info` are translated into executable functions on
`List Char`.  All inputs of interest are ASCII, and the character-class
functions (`isSpaceChar`, `isWordChar`, `Char.isDigit`, `asciiLowerChar`)
model the ASCII behaviour of the corresponding Python constructs.
-/

namespace UsbWhy

/-- ASCII whitespace, modelling Python's `\s` / `str.strip` character class. -/
def isSpaceChar (c : Char) : Bool :=
  c = ' ' || c = '\t' || c = '\n' || c = '\r' || c = '\x0b' || c = '\x0c'

/-- ASCII word character, modelling the regex class `\w`. -/
def isWordChar (c : Char) : Bool :=
  ('a' ≤ c && c ≤ 'z') || ('A' ≤ c && c ≤ 'Z') || ('0' ≤ c && c ≤ '9') || c = '_'

/-- Lower-case one ASCII character, modelling `str.lower` per character. -/
def asciiLowerChar (c : Char) : Char :=
  if 'A' ≤ c && c ≤ 'Z' then Char.ofNat (c.toNat + 32) else c

/-- Model of Python `str.lower` on ASCII strings. -/
def asciiLower (s : String) : String :=
  String.mk (s.data.map asciiLowerChar)

/-- Does `sub` occur as a contiguous run inside `hay`?  Models Python `sub in hay`. -/
def listContainsSub (sub : List Char) : List Char → Bool
  | [] => sub.isEmpty
  | c :: rest => sub.isPrefixOf (c :: rest) || listContainsSub sub rest

/-- String version of `listContainsSub`: Python `sub in hay`. -/
def strContainsSub (hay sub : String) : Bool :=
  listContainsSub sub.data hay.data

/-- The characters after the first occurrence of `sep`, or `none` when `sep`
does not occur.  Models `hay.split(sep, 1)[1]` (`log_parser.py` line 248). -/
def afterFirstSep (sep : List Char) : List Char → Option (List Char)
  | [] => none
  | c :: rest =>
    if sep.isPrefixOf (c :: rest) then some ((c :: rest).drop sep.length)
    else afterFirstSep sep rest

/-- The characters after the last occurrence of `sep`, or `none` when `sep`
does not occur.  Models `hay.rsplit(sep, 1)[1]` (`log_parser.py` line 252). -/
def afterLastSep (sep : List Char) : List Char → Option (List Char)
  | [] => none
  | c :: rest =>
    match afterLastSep sep rest with
    | some r => some r
    | none =>
      if sep.isPrefixOf (c :: rest) then some ((c :: rest).drop sep.length)
      else none

/-- Model of Python `str.strip()`: drop whitespace from both ends. -/
def pyStrip (s : String) : String :=
  String.mk (((s.data.dropWhile isSpaceChar).reverse.dropWhile isSpaceChar).reverse)

/-- `usbwhy.log_parser.LogEntry` (fields as in `__init__`, lines 18-25).
The `timestamp` field is omitted: `parse_timestamp` in the source always
returns `None`, so the field is constantly absent. -/
structure LogEntry where
  message : String
  raw_line : String := ""
  device_id : Option String := none
  vendor_product : Option String := none
  category : String := "info"
deriving DecidableEq

/-- `LogEntry._categorize` (lines 27-46): first matching keyword rule on the
lower-cased message wins; the default is `"info"`. -/
def categorizeMessage (message : String) : String :=
  let m := asciiLower message
  if strContainsSub m "over-current" || strContainsSub m "overcurrent" then "over_current"
  else if strContainsSub m "reset" && strContainsSub m "usb" then "reset"
  else if strContainsSub m "disconnect" && strContainsSub m "usb" then "disconnect"
  else if strContainsSub m "error" || strContainsSub m "failed" then "error"
  else if strContainsSub m "timeout" then "timeout"
  else if strContainsSub m "descriptor read" then "descriptor_error"
  else if strContainsSub m "cannot enumerate" || strContainsSub m "enumeration failed" then "enumeration_error"
  else if strContainsSub m "warning" || strContainsSub m "warn" then "warning"
  else "info"

/-- `LogEntry.__init__`: a fresh entry has no identifiers and is categorized
at construction time from its message. -/
def mkLogEntry (message raw : String) : LogEntry :=
  { message := message, raw_line := raw, device_id := none, vendor_product := none,
    category := categorizeMessage message }

/-- One attempt of the regex `(\w{4}):(\w{4})` at the head of the list:
exactly four word characters, a colon, four word characters. -/
def vpTryHere (l : List Char) : Option (String × String) :=
  match l with
  | a :: b :: c :: d :: col :: e :: f :: g :: h :: _ =>
    if isWordChar a && isWordChar b && isWordChar c && isWordChar d &&
       col = ':' &&
       isWordChar e && isWordChar f && isWordChar g && isWordChar h then
      some (String.mk [a, b, c, d], String.mk [e, f, g, h])
    else none
  | _ => none

/-- `re.search(r'(\w{4}):(\w{4})', message)`: leftmost match of the
vendor:product pattern, returning the two captured groups. -/
def findVP : List Char → Option (String × String)
  | [] => none
  | c :: rest =>
    match vpTryHere (c :: rest) with
    | some r => some r
    | none => findVP rest

/-- Greedy `(\.\d+)*`: maximal run of groups, each a dot followed by at least
one digit.  Returns the consumed characters and the remainder.  (Regex
backtracking cannot produce a shorter successful parse here: dropping a
group leaves a `.` and shortening a digit run leaves a digit at the
position where the pattern next requires a character of `[\s:]`.)
Written with an explicit fuel argument so the recursion is structural. -/
def dotGroupsAux : Nat → List Char → List Char × List Char
  | 0, l => ([], l)
  | _ + 1, [] => ([], [])
  | fuel + 1, c :: rest =>
    if c = '.' ∧ rest.takeWhile Char.isDigit ≠ [] then
      let pr := dotGroupsAux fuel (rest.dropWhile Char.isDigit)
      ('.' :: rest.takeWhile Char.isDigit ++ pr.1, pr.2)
    else ([], c :: rest)

/-- Entry point of `(\.\d+)*`: the fuel is the input length, which bounds
the recursion depth (every iteration consumes a dot and at least one
digit before recursing on the remainder), so the fuel never runs out. -/
def dotGroups (l : List Char) : List Char × List Char :=
  dotGroupsAux l.length l

/-- The core `(\d+-\d+(?:\.\d+)*)[\s:]` of the bus-path regex, attempted at
the head of the list; returns capture group 1 (digits, hyphen, digits, dot
groups) when the whole core including the trailing `[\s:]` matches. -/
def busCoreHere (l : List Char) : Option (List Char) :=
  let d1 := l.takeWhile Char.isDigit
  if d1 = [] then none
  else
    match l.dropWhile Char.isDigit with
    | '-' :: rest2 =>
      let d2 := rest2.takeWhile Char.isDigit
      if d2 = [] then none
      else
        let pr := dotGroups (rest2.dropWhile Char.isDigit)
        match pr.2 with
        | c :: _ =>
          if isSpaceChar c || c = ':' then some (d1 ++ '-' :: d2 ++ pr.1) else none
        | [] => none
    | _ => none

/-- The optional prefix `(?:usb\s+)?` (case-insensitive `usb`, then at least
one whitespace character): the remainder after the prefix, if it matches at
the head of the list. -/
def usbWsHere (l : List Char) : Option (List Char) :=
  match l with
  | a :: b :: c :: rest =>
    if (a = 'u' || a = 'U') && (b = 's' || b = 'S') && (c = 'b' || c = 'B') &&
       !(rest.takeWhile isSpaceChar).isEmpty then
      some (rest.dropWhile isSpaceChar)
    else none
  | _ => none

/-- One attempt of `(?:usb\s+)?(\d+-\d+(?:\.\d+)*)[\s:]` at the head of the
list: the engine first tries with the optional prefix, then without. -/
def busTryHere (l : List Char) : Option (List Char) :=
  match usbWsHere l with
  | some r =>
    match busCoreHere r with
    | some g => some g
    | none => busCoreHere l
  | none => busCoreHere l

/-- `re.search(r'(?:usb\s+)?(\d+-\d+(?:\.\d+)*)[\s:]', message, re.IGNORECASE)`:
leftmost match, returning capture group 1 (the bus path). -/
def findBusPath : List Char → Option String
  | [] => none
  | c :: rest =>
    match busTryHere (c :: rest) with
    | some g => some (String.mk g)
    | none => findBusPath rest

/-- `LogEntry.extract_device_info` (lines 48-61): the bus-path search first
sets `device_id`; a vendor:product match then overrides it, clearing
`device_id` and setting `vendor_product` to the groups joined by a colon. -/
def LogEntry.extract_device_info (e : LogEntry) : LogEntry :=
  let e1 :=
    match findBusPath e.message.data with
    | some g => { e with device_id := some g }
    | none => e
  match findVP e1.message.data with
  | some (v, p) => { e1 with device_id := none, vendor_product := some (v ++ ":" ++ p) }
  | none => e1

/-- The keyword gate of `filter_usb_entries` (lines 220-230). -/
def usb_keywords : List String :=
  ["usb", "over-current", "overcurrent", "reset", "disconnect",
   "descriptor read", "cannot enumerate", "enumeration failed", "timeout"]

/-- The prefix strip of `filter_usb_entries` (lines 247-254): everything
after the first `"] "` if present, else everything after the last `": "`
if present, else the line unchanged. -/
def stripLogMessage (line : String) : String :=
  match afterFirstSep "] ".data line.data with
  | some r => String.mk r
  | none =>
    match afterLastSep ": ".data line.data with
    | some r => String.mk r
    | none => line

/-- `filter_usb_entries` (lines 210-261): keep lines whose lower-casing
contains a USB keyword; strip the log prefix, strip whitespace, construct
the entry (categorizing the stripped message) and extract identifiers from
it.  `parse_timestamp` always returns `None` in the source, so no timestamp
is recorded. -/
def filter_usb_entries (log_lines : List String) : List LogEntry :=
  log_lines.filterMap fun line =>
    if usb_keywords.any (fun kw => strContainsSub (asciiLower line) kw) then
      some (LogEntry.extract_device_info (mkLogEntry (pyStrip (stripLogMessage line)) line))
    else none

/-- `usbwhy.device_enum.USBDevice` (fields as in `__init__`). -/
structure USBDevice where
  device_id : String
  vendor_id : Option String := none
  product_id : Option String := none
  vendor_name : Option String := none
  product_name : Option String := none
  device_class : Option String := none
  speed : Option String := none
  driver : Option String := none
  busnum : Option String := none
  devnum : Option String := none
  parent_id : Option String := none
deriving DecidableEq

/-- `USBDevice.get_id_vendor_product`: the vendor:product string when both
ids are present and non-empty (Python truthiness), else `none`. -/
def USBDevice.get_id_vendor_product (d : USBDevice) : Option String :=
  match d.vendor_id, d.product_id with
  | some v, some p => if v ≠ "" ∧ p ≠ "" then some (v ++ ":" ++ p) else none
  | _, _ => none

/-- `usbwhy.analyzer.DeviceAnalysis` (fields as in `__init__`, lines 17-28). -/
structure DeviceAnalysis where
  device : USBDevice
  log_entries : List LogEntry := []
  issues : List String := []
  reset_count : Nat := 0
  disconnect_count : Nat := 0
  error_count : Nat := 0
  warning_count : Nat := 0
  over_current_count : Nat := 0
  timeout_count : Nat := 0
  descriptor_error_count : Nat := 0
  enumeration_error_count : Nat := 0
deriving DecidableEq

/-- `DeviceAnalysis.__init__`: an empty analysis for a device. -/
def mkAnalysis (d : USBDevice) : DeviceAnalysis :=
  { device := d }

/-- `DeviceAnalysis.add_log_entry` (lines 30-50): append the entry and bump
the counter of its category (entries of category `"info"` bump no counter). -/
def DeviceAnalysis.add_log_entry (a : DeviceAnalysis) (e : LogEntry) : DeviceAnalysis :=
  let a1 := { a with log_entries := a.log_entries ++ [e] }
  if e.category = "reset" then { a1 with reset_count := a1.reset_count + 1 }
  else if e.category = "disconnect" then { a1 with disconnect_count := a1.disconnect_count + 1 }
  else if e.category = "error" then { a1 with error_count := a1.error_count + 1 }
  else if e.category = "warning" then { a1 with warning_count := a1.warning_count + 1 }
  else if e.category = "over_current" then { a1 with over_current_count := a1.over_current_count + 1 }
  else if e.category = "timeout" then { a1 with timeout_count := a1.timeout_count + 1 }
  else if e.category = "descriptor_error" then { a1 with descriptor_error_count := a1.descriptor_error_count + 1 }
  else if e.category = "enumeration_error" then { a1 with enumeration_error_count := a1.enumeration_error_count + 1 }
  else a1

/-- Issue text of the `>= 5` reset tier (`analyzer.py` lines 56-60). -/
def frequentMsg (n : Nat) : String :=
  "Frequent resets/reconnects (" ++ (toString n ++ " occurrences) - possible cable, port, or power problem")

/-- Issue text of the `3 <= _ < 5` reset tier (lines 61-65). -/
def multipleMsg (n : Nat) : String :=
  "Multiple resets/reconnects (" ++ (toString n ++ " occurrences) - check cable and port connection")

/-- Issue text of the over-current rule (lines 68-72). -/
def overCurrentMsg (n : Nat) : String :=
  "Over-current detected (" ++ (toString n ++ " times) - device may be drawing too much power or hub has power issue")

/-- Issue text of the descriptor-error rule (lines 75-79). -/
def descriptorMsg (n : Nat) : String :=
  "Device descriptor read errors (" ++ (toString n ++ " times) - possible hardware connection problem")

/-- Issue text of the enumeration-error rule (lines 82-86). -/
def enumerationMsg (n : Nat) : String :=
  "Enumeration failed (" ++ (toString n ++ " times) - device may not be responding properly")

/-- Issue text of the timeout rule (lines 89-93). -/
def timeoutMsg (n : Nat) : String :=
  "USB timeouts (" ++ (toString n ++ " times) - device may be slow or unresponsive")

/-- Issue text of the unknown-class branch of the driver rule (lines 98-101). -/
def unknownClassMsg : String :=
  "Unknown device class - driver may not be available"

/-- Issue text of the no-driver-bound branch of the driver rule (lines 102-106). -/
def noDriverMsg (c : String) : String :=
  "No driver bound - device class " ++ (c ++ " may not have a matching kernel module")

/-- Issue text of the general-errors rule (lines 109-113). -/
def errorsMsg (n : Nat) : String :=
  "Multiple errors detected (" ++ (toString n ++ " times) - device may be malfunctioning")

/-- The missing-driver rule (lines 96-106): fires when `driver` is `None`
and `device_class` is truthy; classes `"00"`, `"0"`, `"ff"` get the
unknown-class wording, any other class the no-driver-bound wording. -/
def driverIssues (d : USBDevice) : List String :=
  match d.driver, d.device_class with
  | none, some c =>
    if c ≠ "" then
      if c = "00" ∨ c = "0" ∨ c = "ff" then [unknownClassMsg] else [noDriverMsg c]
    else []
  | _, _ => []

/-- The issue strings appended by one `DeviceAnalysis.analyze` call (lines
52-113), in source order: reset tier, over-current, descriptor errors,
enumeration errors, timeouts, driver rule, general errors. -/
def analyzeIssues (a : DeviceAnalysis) : List String :=
  (if 5 ≤ a.reset_count + a.disconnect_count then
     [frequentMsg (a.reset_count + a.disconnect_count)]
   else if 3 ≤ a.reset_count + a.disconnect_count then
     [multipleMsg (a.reset_count + a.disconnect_count)]
   else [])
  ++ (if 0 < a.over_current_count then [overCurrentMsg a.over_current_count] else [])
  ++ (if 0 < a.descriptor_error_count then [descriptorMsg a.descriptor_error_count] else [])
  ++ (if 0 < a.enumeration_error_count then [enumerationMsg a.enumeration_error_count] else [])
  ++ (if 0 < a.timeout_count then [timeoutMsg a.timeout_count] else [])
  ++ driverIssues a.device
  ++ (if 3 ≤ a.error_count then [errorsMsg a.error_count] else [])

/-- `DeviceAnalysis.analyze`: appends the fired issue strings to the
(mutable, initially empty) `issues` list. -/
def DeviceAnalysis.analyze (a : DeviceAnalysis) : DeviceAnalysis :=
  { a with issues := a.issues ++ analyzeIssues a }

/-- The `devices_by_id` dict of `match_logs_to_devices` (lines 133-138):
keyed by `device_id` for devices with a truthy (non-empty) id; a later
device with the same id overwrites an earlier one, so lookup returns the
last matching device. -/
def devicesById : List USBDevice → String → Option USBDevice
  | [], _ => none
  | d :: rest, k =>
    match devicesById rest k with
    | some d1 => some d1
    | none => if d.device_id ≠ "" ∧ d.device_id = k then some d else none

/-- The `devices_by_vp` dict of `match_logs_to_devices` (lines 134-142):
the list at key `k` collects, in input order, every device whose
vendor:product string is `k`. -/
def devicesByVp (devices : List USBDevice) (k : String) : List USBDevice :=
  devices.filter (fun d => d.get_id_vendor_product = some k)

/-- The per-entry body of the matching loop (lines 145-158): the devices an
entry is associated with.  A truthy `device_id` hitting `devices_by_id`
wins and yields that single device; otherwise a truthy `vendor_product`
key present in `devices_by_vp` yields every device under that key (the
defaultdict holds a key exactly when its list is non-empty); otherwise the
entry matches no device. -/
def entryTargets (devices : List USBDevice) (e : LogEntry) : List USBDevice :=
  match (match e.device_id with
         | some s => if s ≠ "" then devicesById devices s else none
         | none => none) with
  | some d => [d]
  | none =>
    match e.vendor_product with
    | some vp => if vp ≠ "" then devicesByVp devices vp else []
    | none => []

/-- `device_logs[d].append(e)` on the defaultdict, modelled on an
association list that keeps key insertion order: append to the existing
key or add the key at the end. -/
def dlAppend : List (USBDevice × List LogEntry) → USBDevice → LogEntry → List (USBDevice × List LogEntry)
  | [], d, e => [(d, [e])]
  | (d0, es) :: rest, d, e =>
    if d0 = d then (d0, es ++ [e]) :: rest else (d0, es) :: dlAppend rest d e

/-- `device_logs.get(d, [])` on the association list. -/
def dlGet : List (USBDevice × List LogEntry) → USBDevice → List LogEntry
  | [], _ => []
  | (d0, es) :: rest, d => if d0 = d then es else dlGet rest d

/-- `match_logs_to_devices` (lines 116-160): for each entry in order,
append it to the list of every device it targets. -/
def match_logs_to_devices (devices : List USBDevice) (log_entries : List LogEntry) :
    List (USBDevice × List LogEntry) :=
  log_entries.foldl
    (fun acc e => (entryTargets devices e).foldl (fun m d => dlAppend m d e) acc) []

/-- `analyze_devices` (lines 163-205): one analysis per input device in
order (entries added in matched order, then one `analyze` call), followed
by analyses for correlation keys absent from the device list (the "ghost"
branch, lines 195-203). -/
def analyze_devices (devices : List USBDevice) (log_entries : List LogEntry) :
    List DeviceAnalysis :=
  let device_logs := match_logs_to_devices devices log_entries
  (devices.map fun d =>
    DeviceAnalysis.analyze ((dlGet device_logs d).foldl DeviceAnalysis.add_log_entry (mkAnalysis d)))
  ++ ((device_logs.filter fun p => decide (p.1 ∉ devices)).map fun p =>
    DeviceAnalysis.analyze (p.2.foldl DeviceAnalysis.add_log_entry (mkAnalysis p.1)))

/-- `get_unmatched_logs` (lines 208-228): the entries that appear in no
device's matched list, in input order.  (The Python code collects matched
entries into a `set` keyed by object identity; since the matching decision
is a function of the entry's value, value-based membership coincides with
identity-based membership here.) -/
def get_unmatched_logs (devices : List USBDevice) (log_entries : List LogEntry) :
    List LogEntry :=
  let device_logs := match_logs_to_devices devices log_entries
  let matched_entries := (device_logs.map (fun p => p.2)).flatten
  log_entries.filter (fun e => decide (e ∉ matched_entries))

/-! Concrete inputs used by the claim theorems, witnesses and counterexamples. -/

/-- The device of the end-to-end scenario: `1-1.2`, vendor `1234`, product
`5678`, no driver, class `ff`. -/
def c1dev : USBDevice :=
  { device_id := "1-1.2", vendor_id := some "1234", product_id := some "5678",
    device_class := some "ff" }

/-- The four raw log lines of the end-to-end scenario. -/
def c1logs : List String :=
  ["usb 1-1.2: reset", "usb 1-1.2: reset", "usb 1-1.2: reset",
   "usb 1-1.2: over-current detected"]

/-- The entry the pipeline actually produces from `"usb 1-1.2: reset"`:
the prefix strip leaves only `"reset"`. -/
def c1entryReset : LogEntry :=
  { message := "reset", raw_line := "usb 1-1.2: reset", category := "info" }

/-- The entry the pipeline actually produces from
`"usb 1-1.2: over-current detected"`. -/
def c1entryOverCurrent : LogEntry :=
  { message := "over-current detected", raw_line := "usb 1-1.2: over-current detected",
    category := "over_current" }

/-- The analysis the pipeline actually produces for `c1dev`: no entries, all
counts zero, only the unknown-device-class issue. -/
def c1analysis : DeviceAnalysis :=
  { device := c1dev, issues := [unknownClassMsg] }

/-- A classified entry carrying only a vendor:product key that belongs to no
enumerated device (the trace of a disconnected device). -/
def ghostEntry : LogEntry :=
  { message := "device 1234:5678 lost", vendor_product := some "1234:5678" }

/-- First of two devices sharing one vendor:product key. -/
def fanDevA : USBDevice :=
  { device_id := "1-1", vendor_id := some "1234", product_id := some "5678" }

/-- Second of two devices sharing one vendor:product key. -/
def fanDevB : USBDevice :=
  { device_id := "2-3", vendor_id := some "1234", product_id := some "5678" }

/-- An entry bearing only the shared vendor:product key (no `device_id`). -/
def fanEntry : LogEntry :=
  { message := "device 1234:5678 event", vendor_product := some "1234:5678" }

/-- An analysis with `reset_count = 5` and an empty issues list, for the
frequent reset tier. -/
def c8analysis : DeviceAnalysis :=
  { device := { device_id := "3-1", driver := some "usbhid" }, reset_count := 5 }

/-- A fresh analysis whose device has no driver and class `ff`, so that
`analyze` fires an issue. -/
def c10analysis : DeviceAnalysis :=
  mkAnalysis { device_id := "9-9", device_class := some "ff" }

/-- An entry whose message holds a bus path before a vendor:product pair. -/
def c5entry : LogEntry :=
  mkLogEntry "usb 1-2: abcd:1234" "usb 1-2: abcd:1234"

/-! Helper lemmas. -/

/-- Taking at most the length of the left part of an append stays in it. -/
theorem take_append_le {α : Type} :
    ∀ (n : Nat) (l1 l2 : List α), n ≤ l1.length → (l1 ++ l2).take n = l1.take n
  | 0, _, _, _ => by simp
  | n + 1, a :: l1, l2, h => by
    simp only [List.cons_append, List.take_succ_cons]
    rw [take_append_le n l1 l2 (Nat.le_of_succ_le_succ h)]
  | n + 1, [], _, h => absurd h (by simp)

/-- Strings differing in their first ten characters differ. -/
theorem str_ne_of_take10 (a b : String) (h : a.data.take 10 ≠ b.data.take 10) : a ≠ b :=
  fun e => h (by rw [e])

/-- The first ten characters of an append are those of a long enough left part. -/
theorem take10_append (p s : String) (h : 10 ≤ p.data.length) :
    (p ++ s).data.take 10 = p.data.take 10 := by
  rw [String.data_append, take_append_le _ _ _ h]

theorem frequentMsg_take10 (n : Nat) : (frequentMsg n).data.take 10 = "Frequent r".data := by
  unfold frequentMsg; rw [take10_append _ _ (by decide)]; decide

theorem multipleMsg_take10 (n : Nat) : (multipleMsg n).data.take 10 = "Multiple r".data := by
  unfold multipleMsg; rw [take10_append _ _ (by decide)]; decide

theorem overCurrentMsg_take10 (n : Nat) : (overCurrentMsg n).data.take 10 = "Over-curre".data := by
  unfold overCurrentMsg; rw [take10_append _ _ (by decide)]; decide

theorem descriptorMsg_take10 (n : Nat) : (descriptorMsg n).data.take 10 = "Device des".data := by
  unfold descriptorMsg; rw [take10_append _ _ (by decide)]; decide

theorem enumerationMsg_take10 (n : Nat) :
    (enumerationMsg n).data.take 10 = "Enumeratio".data := by
  unfold enumerationMsg; rw [take10_append _ _ (by decide)]; decide

theorem timeoutMsg_take10 (n : Nat) : (timeoutMsg n).data.take 10 = "USB timeou".data := by
  unfold timeoutMsg; rw [take10_append _ _ (by decide)]; decide

theorem errorsMsg_take10 (n : Nat) : (errorsMsg n).data.take 10 = "Multiple e".data := by
  unfold errorsMsg; rw [take10_append _ _ (by decide)]; decide

theorem noDriverMsg_take10 (c : String) : (noDriverMsg c).data.take 10 = "No driver ".data := by
  unfold noDriverMsg; rw [take10_append _ _ (by decide)]; decide

/-- Membership in a conditional singleton forces equality. -/
theorem mem_ite_singleton {α : Type} {x m : α} {c : Prop} [Decidable c]
    (h : x ∈ (if c then [m] else ([] : List α))) : x = m := by
  by_cases hc : c
  · simpa [hc] using h
  · simp [hc] at h

/-- Any string in `driverIssues` is the unknown-class message or a
no-driver-bound message. -/
theorem mem_driverIssues {x : String} {d : USBDevice} (h : x ∈ driverIssues d) :
    x = unknownClassMsg ∨ ∃ c, x = noDriverMsg c := by
  unfold driverIssues at h
  rcases hdr : d.driver with _ | dr <;> rcases hcl : d.device_class with _ | c <;>
    rw [hdr, hcl] at h <;> simp at h
  obtain ⟨-, h⟩ := h
  by_cases hcls : c = "00" ∨ c = "0" ∨ c = "ff"
  · exact Or.inl (by simpa [hcls] using h)
  · exact Or.inr ⟨c, by simpa [hcls] using h⟩

/-- Effect of `dlAppend` on `dlGet`: only the appended key's list grows. -/
theorem dlGet_dlAppend (l : List (USBDevice × List LogEntry)) (d : USBDevice) (e : LogEntry)
    (d0 : USBDevice) :
    dlGet (dlAppend l d e) d0 = dlGet l d0 ++ (if d0 = d then [e] else []) := by
  induction l with
  | nil =>
    by_cases h : d = d0
    · subst h; simp [dlAppend, dlGet]
    · simp [dlAppend, dlGet, h, Ne.symm h]
  | cons p rest ih =>
    obtain ⟨d1, es⟩ := p
    by_cases h1 : d1 = d
    · subst h1
      by_cases h2 : d1 = d0
      · subst h2; simp [dlAppend, dlGet]
      · simp [dlAppend, dlGet, h2, Ne.symm h2]
    · by_cases h2 : d1 = d0
      · subst h2
        simp [dlAppend, dlGet, h1, Ne.symm h1]
      · simp [dlAppend, dlGet, h1, h2, ih]

/-- Effect of the fold over an entry's targets on `dlGet`: the entry is
appended once to each (distinct) target's list. -/
theorem dlGet_foldTargets (e : LogEntry) :
    ∀ (ts : List USBDevice) (acc : List (USBDevice × List LogEntry)) (d0 : USBDevice),
      ts.Nodup →
      dlGet (ts.foldl (fun m d => dlAppend m d e) acc) d0
        = dlGet acc d0 ++ (if d0 ∈ ts then [e] else []) := by
  intro ts
  induction ts with
  | nil => intro acc d0 _; simp
  | cons t ts ih =>
    intro acc d0 hnd
    rw [List.foldl_cons, ih _ _ (List.Nodup.of_cons hnd), dlGet_dlAppend]
    by_cases h : d0 = t
    · subst h
      have hnin : d0 ∉ ts := (List.nodup_cons.mp hnd).1
      simp [hnin]
    · simp [h, List.mem_cons]

/-- The targets of an entry are pairwise distinct when the devices are. -/
theorem entryTargets_nodup (devices : List USBDevice) (e : LogEntry)
    (h : devices.Nodup) : (entryTargets devices e).Nodup := by
  unfold entryTargets
  split
  · exact List.nodup_singleton _
  · split
    · unfold devicesByVp
      split
      · exact List.Nodup.filter _ h
      · exact List.nodup_nil
    · exact List.nodup_nil

/-- A successful id lookup returns a device from the list. -/
theorem devicesById_mem :
    ∀ (devices : List USBDevice) (s : String) (d : USBDevice),
      devicesById devices s = some d → d ∈ devices := by
  intro devices
  induction devices with
  | nil => intro s d h; simp [devicesById] at h
  | cons d0 rest ih =>
    intro s d h
    simp only [devicesById] at h
    split at h
    · injection h with h1
      exact List.mem_cons_of_mem _ (h1 ▸ ih s _ (by assumption))
    · split at h
      · injection h with h1
        exact h1 ▸ List.mem_cons_self d0 rest
      · exact absurd h (by simp)

/-- The id lookup misses when no device carries the id. -/
theorem devicesById_eq_none :
    ∀ (devices : List USBDevice) (s : String),
      (∀ d ∈ devices, d.device_id ≠ s) → devicesById devices s = none := by
  intro devices
  induction devices with
  | nil => intro s _; rfl
  | cons d0 rest ih =>
    intro s h
    simp only [devicesById]
    rw [ih s (fun d hd => h d (List.mem_cons_of_mem _ hd))]
    simp [h d0 (List.mem_cons_self d0 rest)]

/-- With pairwise-distinct device ids, the id lookup finds the matching
device. -/
theorem devicesById_eq_some :
    ∀ (devices : List USBDevice) (s : String) (d : USBDevice),
      (devices.map (fun x => x.device_id)).Nodup →
      d ∈ devices → d.device_id = s → s ≠ "" →
      devicesById devices s = some d := by
  intro devices
  induction devices with
  | nil => intro s d _ hmem; simp at hmem
  | cons d0 rest ih =>
    intro s d hnd hmem hid hs
    rw [List.map_cons, List.nodup_cons] at hnd
    rcases List.mem_cons.mp hmem with rfl | hmem1
    · have hnotin : ∀ d1 ∈ rest, d1.device_id ≠ s := by
        intro d1 hd1 heq
        exact hnd.1 (hid ▸ heq ▸ List.mem_map_of_mem (fun x => x.device_id) hd1)
      simp only [devicesById]
      rw [devicesById_eq_none rest s hnotin]
      simp [hid, hs]
    · simp only [devicesById]
      rw [ih s d hnd.2 hmem1 hid hs]

/-- Every target of an entry is a device from the input list. -/
theorem entryTargets_subset (devices : List USBDevice) (e : LogEntry) (d : USBDevice)
    (h : d ∈ entryTargets devices e) : d ∈ devices := by
  unfold entryTargets at h
  split at h
  · next d1 heq =>
    rw [List.mem_singleton.mp h]
    split at heq
    · split at heq
      · exact devicesById_mem devices _ d1 heq
      · exact absurd heq (by simp)
    · exact absurd heq (by simp)
  · split at h
    · split at h
      · exact List.mem_of_mem_filter h
      · simp at h
    · simp at h

/-- `dlGet` on the correlator's result: a device's matched list is exactly
the entries targeting it, in input order. -/
theorem dlGet_match (devices : List USBDevice) (entries : List LogEntry)
    (d0 : USBDevice) (hnd : devices.Nodup) :
    dlGet (match_logs_to_devices devices entries) d0
      = entries.filter (fun e => decide (d0 ∈ entryTargets devices e)) := by
  unfold match_logs_to_devices
  suffices h : ∀ acc,
      dlGet (entries.foldl (fun acc e =>
        (entryTargets devices e).foldl (fun m d => dlAppend m d e) acc) acc) d0
      = dlGet acc d0 ++ entries.filter (fun e => decide (d0 ∈ entryTargets devices e)) by
    simpa [dlGet] using h []
  induction entries with
  | nil => intro acc; simp
  | cons e es ih =>
    intro acc
    rw [List.foldl_cons, ih, dlGet_foldTargets e _ _ _ (entryTargets_nodup devices e hnd)]
    by_cases h : d0 ∈ entryTargets devices e
    · simp [h, List.filter_cons]
    · simp [h, List.filter_cons]

/-- Keys of the association list after `dlAppend`. -/
theorem dlAppend_fst :
    ∀ (l : List (USBDevice × List LogEntry)) (d : USBDevice) (e : LogEntry)
      (p : USBDevice × List LogEntry),
      p ∈ dlAppend l d e → p.1 = d ∨ ∃ q ∈ l, p.1 = q.1 := by
  intro l d e
  induction l with
  | nil =>
    intro p hp
    simp only [dlAppend, List.mem_singleton] at hp
    exact Or.inl (by rw [hp])
  | cons q0 rest ih =>
    obtain ⟨d0, es⟩ := q0
    intro p hp
    simp only [dlAppend] at hp
    split at hp
    · rcases List.mem_cons.mp hp with rfl | hmem
      · exact Or.inr ⟨(d0, es), List.mem_cons_self _ _, rfl⟩
      · exact Or.inr ⟨p, List.mem_cons_of_mem _ hmem, rfl⟩
    · rcases List.mem_cons.mp hp with rfl | hmem
      · exact Or.inr ⟨(d0, es), List.mem_cons_self _ _, rfl⟩
      · rcases ih p hmem with h | ⟨q, hq, hpq⟩
        · exact Or.inl h
        · exact Or.inr ⟨q, List.mem_cons_of_mem _ hq, hpq⟩

/-- All keys produced by the correlator come from the device list. -/
theorem match_keys_subset (devices : List USBDevice) (entries : List LogEntry) :
    ∀ p ∈ match_logs_to_devices devices entries, p.1 ∈ devices := by
  unfold match_logs_to_devices
  suffices h : ∀ (es : List LogEntry) (acc : List (USBDevice × List LogEntry)),
      (∀ p ∈ acc, p.1 ∈ devices) →
      ∀ p ∈ es.foldl (fun acc e =>
        (entryTargets devices e).foldl (fun m d => dlAppend m d e) acc) acc, p.1 ∈ devices by
    exact h entries [] (by simp)
  have hstep : ∀ (e : LogEntry) (ts : List USBDevice)
      (acc : List (USBDevice × List LogEntry)),
      (∀ d ∈ ts, d ∈ devices) → (∀ p ∈ acc, p.1 ∈ devices) →
      ∀ p ∈ ts.foldl (fun m d => dlAppend m d e) acc, p.1 ∈ devices := by
    intro e ts
    induction ts with
    | nil => intro acc _ hacc p hp; exact hacc p hp
    | cons t ts ih =>
      intro acc hts hacc p hp
      refine ih _ (fun d hd => hts d (List.mem_cons_of_mem _ hd)) ?_ p hp
      intro q hq
      rcases dlAppend_fst acc t e q hq with h | ⟨q1, hq1, hqq⟩
      · exact h ▸ hts t (List.mem_cons_self _ _)
      · exact hqq ▸ hacc q1 hq1
  intro es
  induction es with
  | nil => intro acc hacc p hp; exact hacc p hp
  | cons e es ih =>
    intro acc hacc p hp
    exact ih _ (hstep e _ acc (fun d hd => entryTargets_subset devices e d hd) hacc) p hp

/-- Membership in the flattened value lists after `dlAppend`. -/
theorem mem_vals_dlAppend :
    ∀ (l : List (USBDevice × List LogEntry)) (d : USBDevice) (e x : LogEntry),
      (x ∈ ((dlAppend l d e).map (fun p => p.2)).flatten
        ↔ x ∈ (l.map (fun p => p.2)).flatten ∨ x = e) := by
  intro l d e x
  induction l with
  | nil => simp [dlAppend]
  | cons q0 rest ih =>
    obtain ⟨d0, es⟩ := q0
    simp only [dlAppend]
    split
    · simp only [List.map_cons, List.flatten_cons, List.mem_append, List.mem_singleton]
      tauto
    · simp only [List.map_cons, List.flatten_cons, List.mem_append]
      rw [ih]
      tauto

/-- Membership in the flattened value lists after folding one entry over
its targets: the entry is added exactly when it has a target. -/
theorem mem_vals_foldTargets (e : LogEntry) :
    ∀ (ts : List USBDevice) (acc : List (USBDevice × List LogEntry)) (x : LogEntry),
      (x ∈ ((ts.foldl (fun m d => dlAppend m d e) acc).map (fun p => p.2)).flatten
        ↔ x ∈ (acc.map (fun p => p.2)).flatten ∨ (ts ≠ [] ∧ x = e)) := by
  intro ts
  induction ts with
  | nil => intro acc x; simp
  | cons t ts ih =>
    intro acc x
    rw [List.foldl_cons, ih, mem_vals_dlAppend]
    constructor
    · rintro ((h | h) | ⟨-, h⟩)
      · exact Or.inl h
      · exact Or.inr ⟨by simp, h⟩
      · exact Or.inr ⟨by simp, h⟩
    · rintro (h | ⟨-, h⟩)
      · exact Or.inl (Or.inl h)
      · exact Or.inl (Or.inr h)

/-- Membership in the flattened value lists of the correlator's output. -/
theorem mem_vals_match (devices : List USBDevice) (entries : List LogEntry) (x : LogEntry) :
    x ∈ ((match_logs_to_devices devices entries).map (fun p => p.2)).flatten
      ↔ ∃ e ∈ entries, entryTargets devices e ≠ [] ∧ x = e := by
  unfold match_logs_to_devices
  suffices h : ∀ (es : List LogEntry) (acc : List (USBDevice × List LogEntry)),
      (x ∈ ((es.foldl (fun acc e =>
          (entryTargets devices e).foldl (fun m d => dlAppend m d e) acc) acc).map
          (fun p => p.2)).flatten
        ↔ x ∈ (acc.map (fun p => p.2)).flatten
          ∨ ∃ e ∈ es, entryTargets devices e ≠ [] ∧ x = e) by
    simpa using h entries []
  intro es
  induction es with
  | nil => intro acc; simp
  | cons e es ih =>
    intro acc
    rw [List.foldl_cons, ih, mem_vals_foldTargets]
    constructor
    · rintro ((h | ⟨hne, heq⟩) | ⟨e1, he1, hne, heq⟩)
      · exact Or.inl h
      · exact Or.inr ⟨e, List.mem_cons_self _ _, hne, heq⟩
      · exact Or.inr ⟨e1, List.mem_cons_of_mem _ he1, hne, heq⟩
    · rintro (h | ⟨e1, he1, hne, heq⟩)
      · exact Or.inl (Or.inl h)
      · rcases List.mem_cons.mp he1 with rfl | he2
        · exact Or.inl (Or.inr ⟨hne, heq⟩)
        · exact Or.inr ⟨e1, he2, hne, heq⟩

/-- Multiset of the flattened value lists after `dlAppend`: one copy of the
appended entry is added. -/
theorem vals_dlAppend_multiset :
    ∀ (l : List (USBDevice × List LogEntry)) (d : USBDevice) (e : LogEntry),
      (↑(((dlAppend l d e).map (fun p => p.2)).flatten) : Multiset LogEntry)
        = ↑((l.map (fun p => p.2)).flatten) + {e} := by
  intro l d e
  induction l with
  | nil => simp [dlAppend]
  | cons q0 rest ih =>
    obtain ⟨d0, es⟩ := q0
    simp only [dlAppend]
    split
    · simp only [List.map_cons, List.flatten_cons, ← Multiset.coe_add, Multiset.coe_singleton]
      abel
    · simp only [List.map_cons, List.flatten_cons, ← Multiset.coe_add]
      rw [ih]
      abel

/-- Multiset of the flattened value lists after folding one entry over its
targets: one copy per target. -/
theorem vals_foldTargets_multiset (e : LogEntry) :
    ∀ (ts : List USBDevice) (acc : List (USBDevice × List LogEntry)),
      (↑(((ts.foldl (fun m d => dlAppend m d e) acc).map (fun p => p.2)).flatten)
          : Multiset LogEntry)
        = ↑((acc.map (fun p => p.2)).flatten) + Multiset.replicate ts.length e := by
  intro ts
  induction ts with
  | nil => intro acc; simp
  | cons t ts ih =>
    intro acc
    rw [List.foldl_cons, ih, vals_dlAppend_multiset]
    simp only [List.length_cons, Multiset.replicate_succ]
    rw [← Multiset.singleton_add]
    abel

/-- Multiset of the flattened value lists of the correlator's output: each
entry occurs once per device it targets. -/
theorem vals_match_multiset (devices : List USBDevice) (entries : List LogEntry) :
    (↑(((match_logs_to_devices devices entries).map (fun p => p.2)).flatten)
        : Multiset LogEntry)
      = (entries.map (fun e =>
          Multiset.replicate (entryTargets devices e).length e)).sum := by
  unfold match_logs_to_devices
  suffices h : ∀ (es : List LogEntry) (acc : List (USBDevice × List LogEntry)),
      (↑(((es.foldl (fun acc e =>
          (entryTargets devices e).foldl (fun m d => dlAppend m d e) acc) acc).map
          (fun p => p.2)).flatten) : Multiset LogEntry)
        = ↑((acc.map (fun p => p.2)).flatten)
          + (es.map (fun e => Multiset.replicate (entryTargets devices e).length e)).sum by
    simpa using h entries []
  intro es
  induction es with
  | nil => intro acc; simp
  | cons e es ih =>
    intro acc
    rw [List.foldl_cons, ih, vals_foldTargets_multiset]
    simp only [List.map_cons, List.sum_cons]
    abel

/-- Splitting the full fan-out multiset into unmatched singletons plus the
per-target replicas. -/
theorem filter_replicate_sum (devices : List USBDevice) :
    ∀ entries : List LogEntry,
      (↑(entries.filter (fun e => decide (entryTargets devices e = []))) : Multiset LogEntry)
          + (entries.map (fun e =>
              Multiset.replicate (entryTargets devices e).length e)).sum
        = (entries.map (fun e =>
            Multiset.replicate
              (if entryTargets devices e = [] then 1 else (entryTargets devices e).length)
              e)).sum := by
  intro entries
  induction entries with
  | nil => simp
  | cons e es ih =>
    by_cases h : entryTargets devices e = []
    · simp only [List.filter_cons, List.map_cons, List.sum_cons, h, decide_True,
        if_pos, List.length_nil, Multiset.replicate_zero, Multiset.replicate_one]
      rw [← Multiset.cons_coe, ← Multiset.singleton_add, ← ih]
      abel
    · simp only [List.filter_cons, List.map_cons, List.sum_cons, h, decide_False,
        if_neg h, Bool.false_eq_true, if_false]
      rw [← ih]
      abel

/-- A failed vendor:product search means the pattern matches at no
position. -/
theorem findVP_none_tryHere :
    ∀ (l : List Char), findVP l = none → ∀ i, vpTryHere (l.drop i) = none := by
  intro l
  induction l with
  | nil => intro _ i; cases i <;> rfl
  | cons c rest ih =>
    intro h i
    have h0 : vpTryHere (c :: rest) = none ∧ findVP rest = none := by
      simp only [findVP] at h
      rcases htry : vpTryHere (c :: rest) with _ | r
      · rw [htry] at h; exact ⟨rfl, h⟩
      · rw [htry] at h; exact absurd h (by simp)
    cases i with
    | zero => exact h0.1
    | succ j => exact ih h0.2 j

/-! Claim theorems. -/

/-- Claim C3, counterexample: for the raw line `"usb 1-1.2: reset"` the
claim asserts that the bus path `"1-1.2"` (which lies before the stripped
prefix boundary) is still extracted into the resulting entry; the pipeline
actually produces an entry with no `device_id` at all. -/
theorem c3_counterexample :
    (filter_usb_entries ["usb 1-1.2: reset"]).map (fun e => e.device_id) = [none] ∧
    ([none] : List (Option String)) ≠ [some "1-1.2"] := by
  exact ⟨by decide, by decide⟩

/-- Claim C3, amended: identifier extraction (like categorization) runs on
the post-strip message, so an identifier located before the strip boundary
is lost: `"usb 1-1.2: reset"` is stripped to `"reset"` and yields an entry
with no identifiers and category `info`, while the colon-free variant
`"usb 1-1.2 reset"` is not stripped and keeps its bus path and `reset`
category. -/
theorem c3_poststrip_extraction :
    filter_usb_entries ["usb 1-1.2: reset"]
      = [{ message := "reset", raw_line := "usb 1-1.2: reset",
           device_id := none, vendor_product := none, category := "info" }] ∧
    filter_usb_entries ["usb 1-1.2 reset"]
      = [{ message := "usb 1-1.2 reset", raw_line := "usb 1-1.2 reset",
           device_id := some "1-1.2", vendor_product := none, category := "reset" }] := by
  exact ⟨by decide, by decide⟩

/-- Claim C4, counterexample: the raw line `"usb 2-1: reset"` contains both
`"reset"` and `"usb"` and no over-current keyword, yet the pipeline
classifies it as `info`, because the prefix strip removes the `"usb 2-1:"`
part before categorization. -/
theorem c4_counterexample :
    (filter_usb_entries ["usb 2-1: reset"]).map (fun e => e.category) = ["info"] ∧
    (["info"] : List String) ≠ ["reset"] := by
  exact ⟨by decide, by decide⟩

/-- Claim C4, amended: at the classifier level — on the message the entry is
constructed from (the post-strip text), not on the raw line — a message
containing both `"reset"` and `"usb"` (case-insensitive) is categorized
`reset`, unless the higher-priority over-current rule matches, in which
case the category is `over_current`. -/
theorem c4_reset_classification (message raw : String)
    (hr : strContainsSub (asciiLower message) "reset" = true)
    (hu : strContainsSub (asciiLower message) "usb" = true) :
    ((strContainsSub (asciiLower message) "over-current" = false ∧
      strContainsSub (asciiLower message) "overcurrent" = false) →
        (mkLogEntry message raw).category = "reset") ∧
    ((strContainsSub (asciiLower message) "over-current" = true ∨
      strContainsSub (asciiLower message) "overcurrent" = true) →
        (mkLogEntry message raw).category = "over_current") := by
  constructor
  · rintro ⟨h1, h2⟩
    simp [mkLogEntry, categorizeMessage, h1, h2, hr, hu]
  · rintro (h | h) <;> simp [mkLogEntry, categorizeMessage, h]

/-- Witness for the amended C4 at the message `"usb reset"`. -/
theorem c4_reset_classification_witness :
    strContainsSub (asciiLower "usb reset") "reset" = true ∧
    (mkLogEntry "usb reset" "usb reset").category = "reset" :=
  ⟨by decide,
    (c4_reset_classification "usb reset" "usb reset" (by decide) (by decide)).1
      ⟨by decide, by decide⟩⟩

/-- Claim C5: if an entry's message contains a four-word-characters, colon,
four-word-characters substring anywhere, then after extraction the entry's
`device_id` is cleared and `vendor_product` is set to the leftmost such
pair joined by a colon — even when the bus-path pattern also matched. -/
theorem c5_vendor_product_override (e : LogEntry)
    (h : ∃ i, vpTryHere (e.message.data.drop i) ≠ none) :
    (e.extract_device_info).device_id = none ∧
    ∃ v pr, findVP e.message.data = some (v, pr) ∧
      (e.extract_device_info).vendor_product = some (v ++ ":" ++ pr) := by
  obtain ⟨i, hi⟩ := h
  rcases hfv : findVP e.message.data with _ | vp
  · exact absurd (findVP_none_tryHere e.message.data hfv i) hi
  · obtain ⟨v, pr⟩ := vp
    unfold LogEntry.extract_device_info
    rcases hbp : findBusPath e.message.data with _ | g <;> dsimp only <;> rw [hfv]
    · exact ⟨rfl, v, pr, rfl, rfl⟩
    · exact ⟨rfl, v, pr, rfl, rfl⟩

/-- Witness for C5 at the message `"usb 1-2: abcd:1234"`, whose bus path
`1-2` matches first and is then overridden. -/
theorem c5_witness :
    vpTryHere (c5entry.message.data.drop 9) ≠ none ∧
    (c5entry.extract_device_info).device_id = none ∧
    (c5entry.extract_device_info).vendor_product = some ("abcd" ++ ":" ++ "1234") := by
  refine ⟨by decide, (c5_vendor_product_override c5entry ⟨9, by decide⟩).1, ?_⟩
  obtain ⟨v, pr, hfv, hvp⟩ := (c5_vendor_product_override c5entry ⟨9, by decide⟩).2
  have hconc : findVP c5entry.message.data = some ("abcd", "1234") := by decide
  rw [hconc] at hfv
  obtain ⟨h1, h2⟩ := Prod.mk.injEq .. ▸ Option.some_inj.mp hfv.symm
  rw [hvp, h1, h2]

/-- Claim C9: construction plus extraction is a total function (both are
plain functions in this embedding, defined on every string), and on a text
matching no category rule and neither extraction pattern it returns the
fully-default entry: category `info`, no identifiers. -/
theorem c9_classifier_totality (message raw : String)
    (h1 : (strContainsSub (asciiLower message) "over-current"
          || strContainsSub (asciiLower message) "overcurrent") = false)
    (h2 : (strContainsSub (asciiLower message) "reset"
          && strContainsSub (asciiLower message) "usb") = false)
    (h3 : (strContainsSub (asciiLower message) "disconnect"
          && strContainsSub (asciiLower message) "usb") = false)
    (h4 : (strContainsSub (asciiLower message) "error"
          || strContainsSub (asciiLower message) "failed") = false)
    (h5 : strContainsSub (asciiLower message) "timeout" = false)
    (h6 : strContainsSub (asciiLower message) "descriptor read" = false)
    (h7 : (strContainsSub (asciiLower message) "cannot enumerate"
          || strContainsSub (asciiLower message) "enumeration failed") = false)
    (h8 : (strContainsSub (asciiLower message) "warning"
          || strContainsSub (asciiLower message) "warn") = false)
    (hb : findBusPath message.data = none)
    (hv : findVP message.data = none) :
    (mkLogEntry message raw).extract_device_info
      = { message := message, raw_line := raw, device_id := none,
          vendor_product := none, category := "info" } := by
  have hcat : categorizeMessage message = "info" := by
    simp [categorizeMessage, h1, h2, h3, h4, h5, h6, h7, h8]
  unfold LogEntry.extract_device_info mkLogEntry
  dsimp only
  rw [hb, hv, hcat]

/-- Witness for C9 at `"hello world"`. -/
theorem c9_witness :
    findBusPath ("hello world" : String).data = none ∧
    findVP ("hello world" : String).data = none ∧
    (mkLogEntry "hello world" "").extract_device_info
      = { message := "hello world", raw_line := "", device_id := none,
          vendor_product := none, category := "info" } :=
  ⟨by decide, by decide,
    c9_classifier_totality "hello world" "" (by decide) (by decide) (by decide) (by decide)
      (by decide) (by decide) (by decide) (by decide) (by decide) (by decide)⟩

/-- Claim C10, counterexample: `analyze` is not idempotent — on a fresh
analysis whose device has no driver and class `ff`, a second `analyze`
call appends the unknown-class issue a second time. -/
theorem c10_counterexample : c10analysis.analyze.analyze ≠ c10analysis.analyze := by
  decide

/-- Claim C10, amended: `analyze` appends the fired issue strings to the
existing `issues` list, so a second call appends them again; it is
idempotent exactly when no rule fires.  (The orchestrator calls it once
per analysis.) -/
theorem c10_analyze_accumulates (a : DeviceAnalysis) :
    (a.analyze.analyze).issues = (a.analyze).issues ++ analyzeIssues a ∧
    (a.analyze.analyze = a.analyze ↔ analyzeIssues a = []) := by
  refine ⟨rfl, ?_, ?_⟩
  · intro h
    have h1 : (a.issues ++ analyzeIssues a) ++ analyzeIssues a
        = a.issues ++ analyzeIssues a := congrArg DeviceAnalysis.issues h
    rw [List.append_assoc] at h1
    have h2 := List.append_cancel_left h1
    have h3 := congrArg List.length h2
    rw [List.length_append] at h3
    exact List.eq_nil_of_length_eq_zero (by omega)
  · intro h
    have h4 : a.analyze = a := by
      unfold DeviceAnalysis.analyze
      rw [h, List.append_nil]
    rw [h4]
    exact h4

/-- Claim C1, counterexample: on the spec's end-to-end scenario the single
produced analysis has `reset_count = 0`, not `3` — the prefix strip
reduces each `"usb 1-1.2: reset"` line to the message `"reset"`, which is
categorized `info` and carries no identifier, so nothing correlates with
the device. -/
theorem c1_counterexample :
    (analyze_devices [c1dev] (filter_usb_entries c1logs)).map (fun a => a.reset_count)
      = [0] ∧
    ([0] : List Nat) ≠ [3] := by
  exact ⟨by decide, by decide⟩

/-- Claim C1, amended: on the scenario's devices and logs the pipeline
produces exactly one analysis — for `1-1.2`, with no attached entries,
`reset_count = 0`, `over_current_count = 0`, and the single issue being
the unknown-device-class message (class `ff` takes the unknown-class
branch, not the no-driver-bound branch); all four classified entries end
up unmatched. -/
theorem c1_actual_result :
    analyze_devices [c1dev] (filter_usb_entries c1logs) = [c1analysis] ∧
    get_unmatched_logs [c1dev] (filter_usb_entries c1logs)
      = [c1entryReset, c1entryReset, c1entryReset, c1entryOverCurrent] := by
  exact ⟨by decide, by decide⟩

/-- Claim C2: the ghost branch of `analyze_devices` is unreachable — every
correlation key comes from the input device list, so the output always has
exactly one analysis per input device and no ghost analysis is ever
appended; in particular an entry bearing the vendor:product key of a
non-enumerated device produces no analysis. -/
theorem c2_ghost_branch_unreachable :
    (∀ (devices : List USBDevice) (entries : List LogEntry),
      (analyze_devices devices entries).length = devices.length) ∧
    analyze_devices [] [ghostEntry] = [] := by
  constructor
  · intro devices entries
    have hfilter : (match_logs_to_devices devices entries).filter
        (fun p => decide (p.1 ∉ devices)) = [] := by
      rw [List.filter_eq_nil_iff]
      intro p hp
      simp [match_keys_subset devices entries p hp]
    simp only [analyze_devices]
    rw [hfilter]
    simp
  · decide

/-- No device's vendor:product key is the empty string. -/
theorem get_id_vendor_product_ne_empty (d : USBDevice) :
    d.get_id_vendor_product ≠ some "" := by
  unfold USBDevice.get_id_vendor_product
  split
  · split
    · intro h
      injection h with h
      have hlen := congrArg String.length h
      rw [String.length_append, String.length_append] at hlen
      have h1 : (":" : String).length = 1 := rfl
      have h2 : ("" : String).length = 0 := rfl
      omega
    · simp
  · simp

/-- Claim C6: matching priority and fan-out.  (a) An entry whose non-empty
`device_id` equals the id of a listed device targets that single device
only — no vendor:product matching is attempted.  (b) When no listed device
matches the entry's id, the targets are exactly the devices sharing the
entry's vendor:product key (all of them), or nothing when the entry has no
key.  (c) A device's associated list is exactly the entries targeting it,
in input order. -/
theorem c6_match_priority_fanout (devices : List USBDevice) (entries : List LogEntry)
    (e : LogEntry) (d : USBDevice)
    (hids : (devices.map (fun x => x.device_id)).Nodup) :
    (∀ s, e.device_id = some s → s ≠ "" → d ∈ devices → d.device_id = s →
        entryTargets devices e = [d]) ∧
    ((∀ d1 ∈ devices, ∀ s, e.device_id = some s → d1.device_id ≠ s) →
      entryTargets devices e
        = (match e.vendor_product with
           | some vp => devices.filter (fun d1 => d1.get_id_vendor_product = some vp)
           | none => [])) ∧
    dlGet (match_logs_to_devices devices entries) d
      = entries.filter (fun e1 => decide (d ∈ entryTargets devices e1)) := by
  refine ⟨?_, ?_, dlGet_match devices entries d (List.Nodup.of_map _ hids)⟩
  · intro s hes hse hdmem hdid
    unfold entryTargets
    rw [hes]
    dsimp only
    rw [if_pos hse, devicesById_eq_some devices s d hids hdmem hdid hse]
  · intro hno
    have hid : (match e.device_id with
        | some s => if s ≠ "" then devicesById devices s else none
        | none => none) = none := by
      rcases hes : e.device_id with _ | s
      · rfl
      · dsimp only
        split
        · exact devicesById_eq_none devices s (fun d1 hd1 => hno d1 hd1 s hes)
        · rfl
    unfold entryTargets
    rw [hid]
    rcases hvp : e.vendor_product with _ | vp
    · rfl
    · dsimp only
      by_cases hv : vp = ""
      · subst hv
        rw [if_neg (by simp)]
        symm
        rw [List.filter_eq_nil_iff]
        intro d1 _
        simp [get_id_vendor_product_ne_empty d1]
      · rw [if_pos hv]
        rfl

/-- Witness for C6: two devices sharing one vendor:product key both receive
a copy of an entry bearing only that key. -/
theorem c6_witness :
    (([fanDevA, fanDevB].map (fun x => x.device_id)).Nodup) ∧
    dlGet (match_logs_to_devices [fanDevA, fanDevB] [fanEntry]) fanDevA = [fanEntry] ∧
    dlGet (match_logs_to_devices [fanDevA, fanDevB] [fanEntry]) fanDevB = [fanEntry] := by
  refine ⟨by decide, ?_, ?_⟩
  · rw [(c6_match_priority_fanout [fanDevA, fanDevB] [fanEntry] fanEntry fanDevA
      (by decide)).2.2]
    decide
  · rw [(c6_match_priority_fanout [fanDevA, fanDevB] [fanEntry] fanEntry fanDevB
      (by decide)).2.2]
    decide

/-- Claim C7: an entry is unmatched exactly when the correlator attached it
to no device, the unmatched list is the input order filter of the entry
list, and — as multisets — unmatched entries (once each) together with the
per-device lists (once per association, i.e. with fan-out duplication)
make up the full classified entry set with fan-out duplication. -/
theorem c7_unmatched_partition (devices : List USBDevice) (entries : List LogEntry) :
    get_unmatched_logs devices entries
      = entries.filter (fun e => decide (entryTargets devices e = [])) ∧
    (↑(get_unmatched_logs devices entries) : Multiset LogEntry)
        + ↑(((match_logs_to_devices devices entries).map (fun p => p.2)).flatten)
      = (entries.map (fun e =>
          Multiset.replicate
            (if entryTargets devices e = [] then 1 else (entryTargets devices e).length)
            e)).sum := by
  have h1 : get_unmatched_logs devices entries
      = entries.filter (fun e => decide (entryTargets devices e = [])) := by
    show entries.filter
        (fun e => decide (e ∉
          (((match_logs_to_devices devices entries).map (fun p => p.2)).flatten)))
      = entries.filter (fun e => decide (entryTargets devices e = []))
    apply List.filter_congr
    intro x hx
    rw [decide_eq_decide, mem_vals_match]
    constructor
    · intro hnot
      by_contra hne
      exact hnot ⟨x, hx, hne, rfl⟩
    · rintro htg ⟨e1, he1, hne, heq⟩
      exact hne (heq ▸ htg)
  refine ⟨h1, ?_⟩
  rw [h1, vals_match_multiset]
  exact filter_replicate_sum devices entries

/-- Claim C8: the two reset tiers are mutually exclusive.  With an empty
issues list going in, a total of at least 5 resets+disconnects makes the
frequent message the first issue and no multiple message ever appears,
while a total in `[3, 5)` makes the multiple message the first issue and
no frequent message ever appears. -/
theorem c8_reset_tier_exclusive (a : DeviceAnalysis) (h0 : a.issues = []) :
    (5 ≤ a.reset_count + a.disconnect_count →
      (a.analyze).issues.head? = some (frequentMsg (a.reset_count + a.disconnect_count)) ∧
      ∀ k, multipleMsg k ∉ (a.analyze).issues) ∧
    (3 ≤ a.reset_count + a.disconnect_count → a.reset_count + a.disconnect_count < 5 →
      (a.analyze).issues.head? = some (multipleMsg (a.reset_count + a.disconnect_count)) ∧
      ∀ k, frequentMsg k ∉ (a.analyze).issues) := by
  have hiss : (a.analyze).issues = analyzeIssues a := by
    simp [DeviceAnalysis.analyze, h0]
  constructor
  · intro h5
    rw [hiss]
    unfold analyzeIssues
    rw [if_pos h5]
    refine ⟨by simp, ?_⟩
    intro k hk
    simp only [List.append_assoc, List.singleton_append, List.mem_cons,
      List.mem_append] at hk
    rcases hk with (hk | hk) | hk | hk | hk | hk | hk
    · exact str_ne_of_take10 _ _
        (by rw [multipleMsg_take10, frequentMsg_take10]; decide) hk
    · exact str_ne_of_take10 _ _
        (by rw [multipleMsg_take10, overCurrentMsg_take10]; decide) (mem_ite_singleton hk)
    · exact str_ne_of_take10 _ _
        (by rw [multipleMsg_take10, descriptorMsg_take10]; decide) (mem_ite_singleton hk)
    · exact str_ne_of_take10 _ _
        (by rw [multipleMsg_take10, enumerationMsg_take10]; decide) (mem_ite_singleton hk)
    · exact str_ne_of_take10 _ _
        (by rw [multipleMsg_take10, timeoutMsg_take10]; decide) (mem_ite_singleton hk)
    · rcases mem_driverIssues hk with h | ⟨c, h⟩
      · exact str_ne_of_take10 _ _ (by rw [multipleMsg_take10]; decide) h
      · exact str_ne_of_take10 _ _
          (by rw [multipleMsg_take10, noDriverMsg_take10]; decide) h
    · exact str_ne_of_take10 _ _
        (by rw [multipleMsg_take10, errorsMsg_take10]; decide) (mem_ite_singleton hk)
  · intro h3 h5
    have hn5 : ¬ 5 ≤ a.reset_count + a.disconnect_count := by omega
    rw [hiss]
    unfold analyzeIssues
    rw [if_neg hn5, if_pos h3]
    refine ⟨by simp, ?_⟩
    intro k hk
    simp only [List.append_assoc, List.singleton_append, List.mem_cons,
      List.mem_append] at hk
    rcases hk with (hk | hk) | hk | hk | hk | hk | hk
    · exact str_ne_of_take10 _ _
        (by rw [frequentMsg_take10, multipleMsg_take10]; decide) hk
    · exact str_ne_of_take10 _ _
        (by rw [frequentMsg_take10, overCurrentMsg_take10]; decide) (mem_ite_singleton hk)
    · exact str_ne_of_take10 _ _
        (by rw [frequentMsg_take10, descriptorMsg_take10]; decide) (mem_ite_singleton hk)
    · exact str_ne_of_take10 _ _
        (by rw [frequentMsg_take10, enumerationMsg_take10]; decide) (mem_ite_singleton hk)
    · exact str_ne_of_take10 _ _
        (by rw [frequentMsg_take10, timeoutMsg_take10]; decide) (mem_ite_singleton hk)
    · rcases mem_driverIssues hk with h | ⟨c, h⟩
      · exact str_ne_of_take10 _ _ (by rw [frequentMsg_take10]; decide) h
      · exact str_ne_of_take10 _ _
          (by rw [frequentMsg_take10, noDriverMsg_take10]; decide) h
    · exact str_ne_of_take10 _ _
        (by rw [frequentMsg_take10, errorsMsg_take10]; decide) (mem_ite_singleton hk)

/-- Witness for C8 at `reset_count = 5`, `disconnect_count = 0`. -/
theorem c8_witness :
    c8analysis.issues = [] ∧
    5 ≤ c8analysis.reset_count + c8analysis.disconnect_count ∧
    (c8analysis.analyze).issues.head?
      = some (frequentMsg (c8analysis.reset_count + c8analysis.disconnect_count)) ∧
    multipleMsg 5 ∉ (c8analysis.analyze).issues :=
  ⟨rfl, by decide,
    ((c8_reset_tier_exclusive c8analysis rfl).1 (by decide)).1,
    ((c8_reset_tier_exclusive c8analysis rfl).1 (by decide)).2 5⟩

end UsbWhy
